import Mathlib

/-!
Verification of `src/libtriton/bindings/python/namespaces/initRegNamespace.cpp`,
the register-catalog export of the Triton framework.

The C++ function `initRegNamespace(PyObject* registersDict)` clears the given
Python dictionary and repopulates it with one class per architecture
("X86", "X86_64", "AARCH64", "ARM32", and, under `COMPILE_RISCV`, "RV64" and
"RV32").  Each architecture class is built from a declarative specification
table (`triton/x86.spec`, `triton/aarch64.spec`, ...) by expanding, per table
row, a `REG_SPEC` macro into one `xPyDict_SetItemString` call mapping the
canonical upper-case name of the register to `PyLong_FromUint32` of its
pre-assigned `ID_REG_...` identifier.  For the "X86" namespace the insertion
is guarded by the `X86_AVAIL` column of the row; for "X86_64" the same table
is traversed with no guard.  `REG_SPEC_NO_CAPSTONE` and `SYS_REG_SPEC` are defined as aliases of
`REG_SPEC`, so those rows are inserted into the same flat dictionary.

We embed the dictionaries as insertion-ordered association lists with
the CPython `PyDict_SetItemString` update semantics, and the specification
tables as lists of rows.  The `.spec` table files and the `ID_REG_...`
enumerations themselves are not part of the sources here; where a property
depends on them, the required table shape is modelled from the specification
document (unique canonical names, identifiers unique per architecture) and
stated as an explicit hypothesis.
-/

namespace Triton

/-- The implicit conversion of a register-identifier enum constant to
`triton::uint32` at the call `PyLong_FromUint32(triton::arch::ID_REG_...)`:
reduction modulo 2^32. -/
def toUint32 (n : Nat) : Nat := n % 2 ^ 32

/-- One row of the shared x86 specification table `triton/x86.spec` as consumed
by the macro `REG_SPEC(UPPER_NAME, _1, _2, _3, _4, _5, _6, _7, X86_AVAIL)` in
`initRegNamespace.cpp`: the canonical upper-case name (`#UPPER_NAME`), the
pre-assigned identifier `triton::arch::ID_REG_X86_<UPPER_NAME>`, and the ninth
macro argument `X86_AVAIL`.  The seven middle arguments are ignored by this
translation unit. -/
structure X86SpecEntry where
  name : String
  id : Nat
  x86Avail : Bool
deriving DecidableEq

/-- Which spec-table macro introduced a row: `REG_SPEC`,
`REG_SPEC_NO_CAPSTONE` or `SYS_REG_SPEC`.  `initRegNamespace.cpp` defines the
latter two as aliases of `REG_SPEC`, so all three expand to the same
dictionary insertion. -/
inductive SpecKind where
  | reg
  | regNoCapstone
  | sysReg
deriving DecidableEq

/-- One row of an AArch64 / ARM32 / RISC-V specification table: canonical
name, pre-assigned identifier (`ID_REG_AARCH64_...`, `ID_REG_ARM32_...`,
`ID_REG_RV64_...` or `ID_REG_RV32_...`), and the macro that introduced the
row.  (The ARM32 table contains no `SYS_REG_SPEC` rows; the translation unit
does not define that macro for it.) -/
structure ArchSpecEntry where
  name : String
  id : Nat
  kind : SpecKind
deriving DecidableEq

/-- Model of `xPyDict_SetItemString` on an insertion-ordered dictionary:
overwrite the value of an existing key in place, otherwise append the new
binding at the end (CPython dictionaries preserve insertion order). -/
def setItem {α : Type} (d : List (String × α)) (k : String) (v : α) :
    List (String × α) :=
  match d with
  | [] => [(k, v)]
  | (k', v') :: rest =>
    if k' = k then (k, v) :: rest else (k', v') :: setItem rest k v

/-- Model of `PyDict_GetItemString`: the value bound to a key, `none` when
the key is absent. -/
def dictFind {α : Type} (d : List (String × α)) (k : String) : Option α :=
  match d with
  | [] => none
  | (k', v) :: rest => if k' = k then some v else dictFind rest k

/-- The "X86" branch of `initRegNamespace` (expansion of `REG_SPEC` at lines
85-87 over `triton/x86.spec`): one `xPyDict_SetItemString` per table row,
guarded by the `X86_AVAIL` column of the row. -/
def buildX86Dict (table : List X86SpecEntry) : List (String × Nat) :=
  table.foldl
    (fun d e => if e.x86Avail then setItem d e.name (toUint32 e.id) else d) []

/-- The "X86_64" branch (expansion of `REG_SPEC` at lines 99-100 over the same
`triton/x86.spec`): one unconditional `xPyDict_SetItemString` per table row;
the `X86_AVAIL` column is bound to the ignored parameter `_8`. -/
def buildX8664Dict (table : List X86SpecEntry) : List (String × Nat) :=
  table.foldl (fun d e => setItem d e.name (toUint32 e.id)) []

/-- The "AARCH64", "ARM32", "RV64" and "RV32" branches: one unconditional
`xPyDict_SetItemString` per table row, with `REG_SPEC_NO_CAPSTONE` and
`SYS_REG_SPEC` rows expanded exactly like `REG_SPEC` rows. -/
def buildArchDict (table : List ArchSpecEntry) : List (String × Nat) :=
  table.foldl (fun d e => setItem d e.name (toUint32 e.id)) []

/-- The specification tables included by `initRegNamespace.cpp`:
`triton/x86.spec` (shared by the X86 and X86_64 branches),
`triton/aarch64.spec`, `triton/arm32.spec`, `triton/riscv64.spec` and
`triton/riscv32.spec`. -/
structure SpecTables where
  x86 : List X86SpecEntry
  aarch64 : List ArchSpecEntry
  arm32 : List ArchSpecEntry
  riscv64 : List ArchSpecEntry
  riscv32 : List ArchSpecEntry

/-- Model of `triton::bindings::python::initRegNamespace(PyObject*)`.
The function first calls `PyDict_Clear(registersDict)` and then inserts, in
order, one entry per architecture; under the `COMPILE_RISCV` build flag
(parameter `compileRiscv`) it additionally inserts "RV64" and "RV32".  Each
per-architecture dictionary is wrapped by `xPyClass_New` into a class object
whose attribute mapping is exactly that dictionary; we record the observable
content of the class, i.e. the dictionary itself, as the value.  Because of
the initial clear, the result is independent of the prior content
`registersDict`. -/
def initRegNamespace (tables : SpecTables) (compileRiscv : Bool)
    (registersDict : List (String × List (String × Nat))) :
    List (String × List (String × Nat)) :=
  let d0 : List (String × List (String × Nat)) := []
  let d1 := setItem d0 "X86" (buildX86Dict tables.x86)
  let d2 := setItem d1 "X86_64" (buildX8664Dict tables.x86)
  let d3 := setItem d2 "AARCH64" (buildArchDict tables.aarch64)
  let d4 := setItem d3 "ARM32" (buildArchDict tables.arm32)
  if compileRiscv then
    let d5 := setItem d4 "RV64" (buildArchDict tables.riscv64)
    setItem d5 "RV32" (buildArchDict tables.riscv32)
  else
    d4

/-- Modelled from the spec: well-formedness of the x86 specification table,
which is not among the sources here (`triton/x86.spec` and the
`ID_REG_X86_...` enumeration).  The spec requires canonical names to be unique
within an architecture (a duplicate is a fatal configuration error) and each
identifier to be a fixed constant unique to its register, hence distinct names
carry distinct identifiers; identifiers are compared at the 32-bit width at
which the code materializes them. -/
def x86TableWF (t : List X86SpecEntry) : Prop :=
  (t.map X86SpecEntry.name).Nodup ∧
  ∀ e1 ∈ t, ∀ e2 ∈ t, toUint32 e1.id = toUint32 e2.id → e1.name = e2.name

/-- Modelled from the spec: well-formedness of an AArch64 / ARM32 / RISC-V
specification table, on the same grounds as `x86TableWF`. -/
def archTableWF (t : List ArchSpecEntry) : Prop :=
  (t.map ArchSpecEntry.name).Nodup ∧
  ∀ e1 ∈ t, ∀ e2 ∈ t, toUint32 e1.id = toUint32 e2.id → e1.name = e2.name

instance (t : List X86SpecEntry) : Decidable (x86TableWF t) := by
  unfold x86TableWF; infer_instance

instance (t : List ArchSpecEntry) : Decidable (archTableWF t) := by
  unfold archTableWF; infer_instance

/-- Modelled from the spec: the toy x86 specification table of the example
scenario in §8 of the specification document, standing in for the real
`triton/x86.spec`, which is not among the sources here. -/
def toyX86Table : List X86SpecEntry :=
  [⟨"AL", 1, true⟩, ⟨"AH", 2, true⟩, ⟨"FUTURE1", 3, false⟩]

/-- Modelled from the spec: a small AArch64-style table with ordinary rows, a
row not recognized by the decoding engine, and a system-register sub-table row
merged in, standing in for the real `.spec` tables, which are not among the
sources here. -/
def toyArchTable : List ArchSpecEntry :=
  [⟨"X0", 10, SpecKind.reg⟩, ⟨"X1", 11, SpecKind.regNoCapstone⟩,
   ⟨"SYSREG0", 12, SpecKind.sysReg⟩]

/-- Modelled from the spec: a toy bundle of specification tables used to
exhibit concrete instances of the verified properties. -/
def toySpecTables : SpecTables :=
  ⟨toyX86Table, toyArchTable,
   [⟨"R0", 20, SpecKind.reg⟩, ⟨"R1", 21, SpecKind.regNoCapstone⟩],
   toyArchTable, toyArchTable⟩

/-! ### Dictionary lemmas -/

theorem dictFind_setItem {α : Type} (d : List (String × α)) (k n : String)
    (v : α) :
    dictFind (setItem d k v) n = if k = n then some v else dictFind d n := by
  induction d with
  | nil =>
    by_cases h : k = n <;> simp [setItem, dictFind, h]
  | cons hd tl ih =>
    obtain ⟨k', v'⟩ := hd
    by_cases h1 : k' = k
    · subst h1
      by_cases h2 : k' = n <;> simp [setItem, dictFind, h2]
    · by_cases h2 : k' = n
      · have h3 : ¬(k = n) := fun h => h1 (h2.trans h.symm)
        have h4 : ¬(n = k) := fun h => h1 (h2.trans h)
        simp [setItem, dictFind, h1, h2, h3, h4]
      · simp [setItem, dictFind, h1, h2, ih]

theorem keys_setItem_of_not_mem {α : Type} (d : List (String × α))
    (k : String) (v : α) (h : k ∉ d.map Prod.fst) :
    (setItem d k v).map Prod.fst = d.map Prod.fst ++ [k] := by
  induction d with
  | nil => rfl
  | cons hd tl ih =>
    obtain ⟨k', v'⟩ := hd
    simp only [List.map_cons, List.mem_cons] at h
    push_neg at h
    have hk : ¬(k' = k) := fun hkk => h.1 hkk.symm
    simp [setItem, hk, ih h.2]

/-! ### Generic lemmas about the guarded insertion fold -/

theorem dictFind_insertFold_of_forall_not {α : Type} (name : α → String)
    (val : α → Nat) (keep : α → Bool) (l : List α) :
    ∀ d : List (String × Nat), ∀ n : String,
      (∀ e ∈ l, ¬(keep e = true ∧ name e = n)) →
      dictFind
        (l.foldl
          (fun acc e => if keep e then setItem acc (name e) (val e) else acc)
          d) n
        = dictFind d n := by
  induction l with
  | nil => intro d n _; rfl
  | cons a l ih =>
    intro d n h
    rw [List.foldl_cons]
    rw [ih _ n (fun x hx => h x (List.mem_cons_of_mem _ hx))]
    by_cases hk : keep a = true
    · have hn : ¬(name a = n) := fun hn => h a (List.mem_cons_self a l) ⟨hk, hn⟩
      simp [hk, dictFind_setItem, hn]
    · simp [hk]

theorem dictFind_insertFold_of_mem {α : Type} (name : α → String)
    (val : α → Nat) (keep : α → Bool) (l : List α) :
    ∀ d : List (String × Nat),
      (l.map name).Nodup → ∀ e, e ∈ l → keep e = true →
      dictFind
        (l.foldl
          (fun acc e => if keep e then setItem acc (name e) (val e) else acc)
          d) (name e)
        = some (val e) := by
  induction l with
  | nil => intro d _ e he; cases he
  | cons a l ih =>
    intro d hnodup e he hk
    rw [List.foldl_cons]
    rcases List.mem_cons.mp he with rfl | hmem
    · have hnot : ∀ x ∈ l, ¬(keep x = true ∧ name x = name e) := by
        intro x hx hc
        have habs : name e ∉ l.map name := (List.nodup_cons.mp hnodup).1
        exact habs (hc.2 ▸ List.mem_map_of_mem name hx)
      rw [dictFind_insertFold_of_forall_not name val keep l _ _ hnot]
      simp [hk, dictFind_setItem]
    · exact ih _ (List.nodup_cons.mp hnodup).2 e hmem hk

theorem dictFind_insertFold_some {α : Type} (name : α → String)
    (val : α → Nat) (keep : α → Bool) (l : List α) :
    ∀ d : List (String × Nat), ∀ n : String, ∀ i : Nat,
      dictFind
        (l.foldl
          (fun acc e => if keep e then setItem acc (name e) (val e) else acc)
          d) n
        = some i →
      (∃ e, e ∈ l ∧ keep e = true ∧ name e = n ∧ val e = i) ∨
        dictFind d n = some i := by
  induction l with
  | nil => intro d n i h; exact Or.inr h
  | cons a l ih =>
    intro d n i h
    rw [List.foldl_cons] at h
    rcases ih _ n i h with ⟨e, he, hk, hn, hv⟩ | h2
    · exact Or.inl ⟨e, List.mem_cons_of_mem _ he, hk, hn, hv⟩
    · by_cases hk : keep a = true
      · simp only [hk, if_true, dictFind_setItem] at h2
        by_cases hn : name a = n
        · rw [if_pos hn] at h2
          exact Or.inl ⟨a, List.mem_cons_self a l, hk, hn, Option.some.inj h2⟩
        · rw [if_neg hn] at h2
          exact Or.inr h2
      · rw [if_neg hk] at h2
        exact Or.inr h2

theorem keys_insertFold {α : Type} (name : α → String) (val : α → Nat)
    (l : List α) :
    ∀ d : List (String × Nat),
      (d.map Prod.fst ++ l.map name).Nodup →
      (l.foldl (fun acc e => setItem acc (name e) (val e)) d).map Prod.fst
        = d.map Prod.fst ++ l.map name := by
  induction l with
  | nil => intro d _; simp
  | cons a l ih =>
    intro d h
    rw [List.foldl_cons]
    have hna : name a ∉ d.map Prod.fst := by
      intro hmem
      rcases List.nodup_append.mp h with ⟨_, _, hdisj⟩
      exact hdisj hmem (List.mem_cons_self _ _)
    have hkeys := keys_setItem_of_not_mem d (name a) (val a) hna
    have h2 : ((setItem d (name a) (val a)).map Prod.fst
        ++ l.map name).Nodup := by
      rw [hkeys, List.append_assoc]
      simpa using h
    rw [ih _ h2, hkeys]
    simp

/-! ### Corollaries for the three builders -/

theorem buildX86Dict_find_none (t : List X86SpecEntry) (n : String)
    (h : ∀ e ∈ t, ¬(e.x86Avail = true ∧ e.name = n)) :
    dictFind (buildX86Dict t) n = none := by
  have hgen := dictFind_insertFold_of_forall_not
      (fun e : X86SpecEntry => e.name) (fun e => toUint32 e.id)
      (fun e => e.x86Avail) t [] n h
  simpa [buildX86Dict, dictFind] using hgen

theorem buildX86Dict_find_mem (t : List X86SpecEntry)
    (hnodup : (t.map X86SpecEntry.name).Nodup) (e : X86SpecEntry)
    (he : e ∈ t) (hav : e.x86Avail = true) :
    dictFind (buildX86Dict t) e.name = some (toUint32 e.id) := by
  have hgen := dictFind_insertFold_of_mem
      (fun e : X86SpecEntry => e.name) (fun e => toUint32 e.id)
      (fun e => e.x86Avail) t [] hnodup e he hav
  simpa [buildX86Dict] using hgen

theorem buildX86Dict_find_some (t : List X86SpecEntry) (n : String) (i : Nat)
    (h : dictFind (buildX86Dict t) n = some i) :
    ∃ e, e ∈ t ∧ e.x86Avail = true ∧ e.name = n ∧ toUint32 e.id = i := by
  have hgen := dictFind_insertFold_some
      (fun e : X86SpecEntry => e.name) (fun e => toUint32 e.id)
      (fun e => e.x86Avail) t [] n i (by simpa [buildX86Dict] using h)
  rcases hgen with ⟨e, he, hk, hn, hv⟩ | hbad
  · exact ⟨e, he, hk, hn, hv⟩
  · simp [dictFind] at hbad

theorem buildX8664Dict_find_mem (t : List X86SpecEntry)
    (hnodup : (t.map X86SpecEntry.name).Nodup) (e : X86SpecEntry)
    (he : e ∈ t) :
    dictFind (buildX8664Dict t) e.name = some (toUint32 e.id) := by
  have hgen := dictFind_insertFold_of_mem
      (fun e : X86SpecEntry => e.name) (fun e => toUint32 e.id)
      (fun _ => true) t [] hnodup e he rfl
  simpa [buildX8664Dict] using hgen

theorem buildX8664Dict_find_some (t : List X86SpecEntry) (n : String)
    (i : Nat) (h : dictFind (buildX8664Dict t) n = some i) :
    ∃ e, e ∈ t ∧ e.name = n ∧ toUint32 e.id = i := by
  have hgen := dictFind_insertFold_some
      (fun e : X86SpecEntry => e.name) (fun e => toUint32 e.id)
      (fun _ => true) t [] n i (by simpa [buildX8664Dict] using h)
  rcases hgen with ⟨e, he, _, hn, hv⟩ | hbad
  · exact ⟨e, he, hn, hv⟩
  · simp [dictFind] at hbad

theorem buildX8664Dict_keys (t : List X86SpecEntry)
    (hnodup : (t.map X86SpecEntry.name).Nodup) :
    (buildX8664Dict t).map Prod.fst = t.map X86SpecEntry.name := by
  have hgen := keys_insertFold (fun e : X86SpecEntry => e.name)
      (fun e => toUint32 e.id) t [] (by simpa using hnodup)
  simpa [buildX8664Dict] using hgen

theorem buildArchDict_find_mem (t : List ArchSpecEntry)
    (hnodup : (t.map ArchSpecEntry.name).Nodup) (e : ArchSpecEntry)
    (he : e ∈ t) :
    dictFind (buildArchDict t) e.name = some (toUint32 e.id) := by
  have hgen := dictFind_insertFold_of_mem
      (fun e : ArchSpecEntry => e.name) (fun e => toUint32 e.id)
      (fun _ => true) t [] hnodup e he rfl
  simpa [buildArchDict] using hgen

theorem buildArchDict_find_some (t : List ArchSpecEntry) (n : String)
    (i : Nat) (h : dictFind (buildArchDict t) n = some i) :
    ∃ e, e ∈ t ∧ e.name = n ∧ toUint32 e.id = i := by
  have hgen := dictFind_insertFold_some
      (fun e : ArchSpecEntry => e.name) (fun e => toUint32 e.id)
      (fun _ => true) t [] n i (by simpa [buildArchDict] using h)
  rcases hgen with ⟨e, he, _, hn, hv⟩ | hbad
  · exact ⟨e, he, hn, hv⟩
  · simp [dictFind] at hbad

theorem buildX86Dict_inj (t : List X86SpecEntry) (hWF : x86TableWF t) :
    ∀ n1 n2 i, dictFind (buildX86Dict t) n1 = some i →
      dictFind (buildX86Dict t) n2 = some i → n1 = n2 := by
  intro n1 n2 i h1 h2
  rcases buildX86Dict_find_some t n1 i h1 with ⟨e1, he1, _, hn1, hv1⟩
  rcases buildX86Dict_find_some t n2 i h2 with ⟨e2, he2, _, hn2, hv2⟩
  rw [← hn1, ← hn2]
  exact hWF.2 e1 he1 e2 he2 (by rw [hv1, hv2])

theorem buildX8664Dict_inj (t : List X86SpecEntry) (hWF : x86TableWF t) :
    ∀ n1 n2 i, dictFind (buildX8664Dict t) n1 = some i →
      dictFind (buildX8664Dict t) n2 = some i → n1 = n2 := by
  intro n1 n2 i h1 h2
  rcases buildX8664Dict_find_some t n1 i h1 with ⟨e1, he1, hn1, hv1⟩
  rcases buildX8664Dict_find_some t n2 i h2 with ⟨e2, he2, hn2, hv2⟩
  rw [← hn1, ← hn2]
  exact hWF.2 e1 he1 e2 he2 (by rw [hv1, hv2])

theorem buildArchDict_inj (t : List ArchSpecEntry) (hWF : archTableWF t) :
    ∀ n1 n2 i, dictFind (buildArchDict t) n1 = some i →
      dictFind (buildArchDict t) n2 = some i → n1 = n2 := by
  intro n1 n2 i h1 h2
  rcases buildArchDict_find_some t n1 i h1 with ⟨e1, he1, hn1, hv1⟩
  rcases buildArchDict_find_some t n2 i h2 with ⟨e2, he2, hn2, hv2⟩
  rw [← hn1, ← hn2]
  exact hWF.2 e1 he1 e2 he2 (by rw [hv1, hv2])

theorem buildX86Dict_values_lt (t : List X86SpecEntry) (n : String) (i : Nat)
    (h : dictFind (buildX86Dict t) n = some i) : i < 2 ^ 32 := by
  rcases buildX86Dict_find_some t n i h with ⟨e, _, _, _, hv⟩
  rw [← hv, toUint32]
  exact Nat.mod_lt _ (by norm_num)

theorem buildX8664Dict_values_lt (t : List X86SpecEntry) (n : String)
    (i : Nat) (h : dictFind (buildX8664Dict t) n = some i) : i < 2 ^ 32 := by
  rcases buildX8664Dict_find_some t n i h with ⟨e, _, _, hv⟩
  rw [← hv, toUint32]
  exact Nat.mod_lt _ (by norm_num)

theorem buildArchDict_values_lt (t : List ArchSpecEntry) (n : String)
    (i : Nat) (h : dictFind (buildArchDict t) n = some i) : i < 2 ^ 32 := by
  rcases buildArchDict_find_some t n i h with ⟨e, _, _, hv⟩
  rw [← hv, toUint32]
  exact Nat.mod_lt _ (by norm_num)

/-! ### The shape of the published catalog -/

theorem initRegNamespace_eq (t : SpecTables) (r : Bool)
    (d : List (String × List (String × Nat))) :
    initRegNamespace t r d =
      [("X86", buildX86Dict t.x86), ("X86_64", buildX8664Dict t.x86),
       ("AARCH64", buildArchDict t.aarch64),
       ("ARM32", buildArchDict t.arm32)]
      ++ (if r then
            [("RV64", buildArchDict t.riscv64),
             ("RV32", buildArchDict t.riscv32)]
          else []) := by
  cases r <;> rfl

theorem dictFind_cons_some {α : Type} {k : String} {v : α}
    {rest : List (String × α)} {label : String} {dd : α}
    (h : dictFind ((k, v) :: rest) label = some dd) :
    dd = v ∨ dictFind rest label = some dd := by
  by_cases hk : k = label
  · simp only [dictFind, if_pos hk] at h
    exact Or.inl (Option.some.inj h).symm
  · simp only [dictFind, if_neg hk] at h
    exact Or.inr h

theorem catalog_values (t : SpecTables) (r : Bool)
    (d : List (String × List (String × Nat))) (label : String)
    (dd : List (String × Nat))
    (h : dictFind (initRegNamespace t r d) label = some dd) :
    dd = buildX86Dict t.x86 ∨ dd = buildX8664Dict t.x86 ∨
    dd = buildArchDict t.aarch64 ∨ dd = buildArchDict t.arm32 ∨
    dd = buildArchDict t.riscv64 ∨ dd = buildArchDict t.riscv32 := by
  rw [initRegNamespace_eq] at h
  cases r with
  | false =>
    simp only [if_neg Bool.false_ne_true, List.append_nil] at h
    rcases dictFind_cons_some h with hdd | h
    · exact Or.inl hdd
    rcases dictFind_cons_some h with hdd | h
    · exact Or.inr (Or.inl hdd)
    rcases dictFind_cons_some h with hdd | h
    · exact Or.inr (Or.inr (Or.inl hdd))
    rcases dictFind_cons_some h with hdd | h
    · exact Or.inr (Or.inr (Or.inr (Or.inl hdd)))
    simp [dictFind] at h
  | true =>
    simp only [if_pos, List.cons_append, List.nil_append] at h
    rcases dictFind_cons_some h with hdd | h
    · exact Or.inl hdd
    rcases dictFind_cons_some h with hdd | h
    · exact Or.inr (Or.inl hdd)
    rcases dictFind_cons_some h with hdd | h
    · exact Or.inr (Or.inr (Or.inl hdd))
    rcases dictFind_cons_some h with hdd | h
    · exact Or.inr (Or.inr (Or.inr (Or.inl hdd)))
    rcases dictFind_cons_some h with hdd | h
    · exact Or.inr (Or.inr (Or.inr (Or.inr (Or.inl hdd))))
    rcases dictFind_cons_some h with hdd | h
    · exact Or.inr (Or.inr (Or.inr (Or.inr (Or.inr hdd))))
    simp [dictFind] at h

/-! ### Claim theorems -/

/-- C1: for the two x86 variants built from the one shared specification
table with unique canonical names, every (name, identifier) pair of the "X86"
namespace is present in the "X86_64" namespace with the same identifier, and
as soon as the table carries a row whose `X86_AVAIL` column is false (as the
real table does for the 64-bit-only registers), the "X86_64" namespace
contains a pair whose name is absent from "X86". -/
theorem c1_x86_strict_subset_of_x8664 (t : List X86SpecEntry)
    (hnodup : (t.map X86SpecEntry.name).Nodup)
    (hstrict : ∃ e ∈ t, e.x86Avail = false) :
    (∀ n i, dictFind (buildX86Dict t) n = some i →
      dictFind (buildX8664Dict t) n = some i) ∧
    (∃ n i, dictFind (buildX8664Dict t) n = some i ∧
      dictFind (buildX86Dict t) n = none) := by
  constructor
  · intro n i h
    rcases buildX86Dict_find_some t n i h with ⟨e, he, _, hn, hv⟩
    rw [← hn, buildX8664Dict_find_mem t hnodup e he, hv]
  · obtain ⟨e, he, hav⟩ := hstrict
    refine ⟨e.name, toUint32 e.id, buildX8664Dict_find_mem t hnodup e he, ?_⟩
    apply buildX86Dict_find_none
    intro e' he' hc
    have heq : e' = e := List.inj_on_of_nodup_map hnodup he' he hc.2
    rw [heq, hav] at hc
    exact Bool.false_ne_true hc.1

theorem c1_witness :
    ((toyX86Table.map X86SpecEntry.name).Nodup ∧
      ∃ e ∈ toyX86Table, e.x86Avail = false) ∧
    ((∀ n i, dictFind (buildX86Dict toyX86Table) n = some i →
        dictFind (buildX8664Dict toyX86Table) n = some i) ∧
     (∃ n i, dictFind (buildX8664Dict toyX86Table) n = some i ∧
        dictFind (buildX86Dict toyX86Table) n = none)) :=
  ⟨⟨by decide, by decide⟩,
   c1_x86_strict_subset_of_x8664 toyX86Table (by decide) (by decide)⟩

/-- C2: in a table with unique canonical names, a row whose `X86_AVAIL` flag
is false contributes no key to the "X86" namespace, and a row whose flag is
true maps its name to its pre-assigned 32-bit identifier; on the toy table of
the specification document, building yields exactly "AL" at 1 and "AH" at 2,
with "FUTURE1" absent. -/
theorem c2_availability_filter (t : List X86SpecEntry)
    (hnodup : (t.map X86SpecEntry.name).Nodup)
    (e : X86SpecEntry) (he : e ∈ t) :
    (e.x86Avail = false → dictFind (buildX86Dict t) e.name = none) ∧
    (e.x86Avail = true → e.id < 2 ^ 32 →
      dictFind (buildX86Dict t) e.name = some e.id) ∧
    buildX86Dict toyX86Table = [("AL", 1), ("AH", 2)] ∧
    dictFind (buildX86Dict toyX86Table) "FUTURE1" = none := by
  refine ⟨?_, ?_, by decide, by decide⟩
  · intro hav
    apply buildX86Dict_find_none
    intro e' he' hc
    have heq : e' = e := List.inj_on_of_nodup_map hnodup he' he hc.2
    rw [heq, hav] at hc
    exact Bool.false_ne_true hc.1
  · intro hav hlt
    have hfind := buildX86Dict_find_mem t hnodup e he hav
    rwa [toUint32, Nat.mod_eq_of_lt hlt] at hfind

theorem c2_witness :
    ((toyX86Table.map X86SpecEntry.name).Nodup ∧
      (⟨"FUTURE1", 3, false⟩ : X86SpecEntry) ∈ toyX86Table) ∧
    (((⟨"FUTURE1", 3, false⟩ : X86SpecEntry).x86Avail = false →
        dictFind (buildX86Dict toyX86Table)
          (⟨"FUTURE1", 3, false⟩ : X86SpecEntry).name = none) ∧
     ((⟨"FUTURE1", 3, false⟩ : X86SpecEntry).x86Avail = true →
        (⟨"FUTURE1", 3, false⟩ : X86SpecEntry).id < 2 ^ 32 →
        dictFind (buildX86Dict toyX86Table)
          (⟨"FUTURE1", 3, false⟩ : X86SpecEntry).name
          = some (⟨"FUTURE1", 3, false⟩ : X86SpecEntry).id) ∧
     buildX86Dict toyX86Table = [("AL", 1), ("AH", 2)] ∧
     dictFind (buildX86Dict toyX86Table) "FUTURE1" = none) :=
  ⟨⟨by decide, by decide⟩,
   c2_availability_filter toyX86Table (by decide) ⟨"FUTURE1", 3, false⟩
     (by decide)⟩

/-- C3: the export clears the target dictionary before repopulating it, so
its result is independent of every prior state of the target, re-running it
on its own output reproduces the same content, and a pre-seeded entry does
not survive the export. -/
theorem c3_export_idempotent (t : SpecTables) (r : Bool)
    (d d' : List (String × List (String × Nat)))
    (k : String) (v : List (String × Nat)) :
    initRegNamespace t r d = initRegNamespace t r d' ∧
    initRegNamespace t r (initRegNamespace t r d) = initRegNamespace t r d ∧
    initRegNamespace t r (setItem d k v) = initRegNamespace t r [] :=
  ⟨rfl, rfl, rfl⟩

/-- C4: for every architecture label present in the published catalog built
from well-formed tables, the name-to-identifier mapping is functional, and no
two distinct canonical names map to the same identifier. -/
theorem c4_catalog_functional_injective (t : SpecTables) (r : Bool)
    (d : List (String × List (String × Nat)))
    (hx : x86TableWF t.x86) (ha : archTableWF t.aarch64)
    (hm : archTableWF t.arm32) (h64 : archTableWF t.riscv64)
    (h32 : archTableWF t.riscv32)
    (label : String) (dd : List (String × Nat))
    (h : dictFind (initRegNamespace t r d) label = some dd) :
    (∀ n i j, dictFind dd n = some i → dictFind dd n = some j → i = j) ∧
    (∀ n1 n2 i, dictFind dd n1 = some i → dictFind dd n2 = some i →
      n1 = n2) := by
  refine ⟨fun n i j h1 h2 => by rw [h1] at h2; exact Option.some.inj h2, ?_⟩
  rcases catalog_values t r d label dd h with hdd | hdd | hdd | hdd | hdd | hdd
  · exact hdd ▸ buildX86Dict_inj t.x86 hx
  · exact hdd ▸ buildX8664Dict_inj t.x86 hx
  · exact hdd ▸ buildArchDict_inj t.aarch64 ha
  · exact hdd ▸ buildArchDict_inj t.arm32 hm
  · exact hdd ▸ buildArchDict_inj t.riscv64 h64
  · exact hdd ▸ buildArchDict_inj t.riscv32 h32

theorem c4_witness :
    (x86TableWF toySpecTables.x86 ∧ archTableWF toySpecTables.aarch64 ∧
      archTableWF toySpecTables.arm32 ∧ archTableWF toySpecTables.riscv64 ∧
      archTableWF toySpecTables.riscv32 ∧
      dictFind (initRegNamespace toySpecTables false []) "X86"
        = some (buildX86Dict toyX86Table)) ∧
    ((∀ n i j, dictFind (buildX86Dict toyX86Table) n = some i →
        dictFind (buildX86Dict toyX86Table) n = some j → i = j) ∧
     (∀ n1 n2 i, dictFind (buildX86Dict toyX86Table) n1 = some i →
        dictFind (buildX86Dict toyX86Table) n2 = some i → n1 = n2)) :=
  ⟨⟨by decide, by decide, by decide, by decide, by decide, by decide⟩,
   c4_catalog_functional_injective toySpecTables false [] (by decide)
     (by decide) (by decide) (by decide) (by decide) "X86"
     (buildX86Dict toyX86Table) (by decide)⟩

/-- C5: the top-level keys of the published namespace are exactly "X86",
"X86_64", "AARCH64" and "ARM32" when the RISC-V family is disabled, and
exactly those four followed by "RV64" and "RV32" when it is enabled. -/
theorem c5_catalog_keys (t : SpecTables) (r : Bool)
    (d : List (String × List (String × Nat))) :
    (initRegNamespace t r d).map Prod.fst =
      if r then ["X86", "X86_64", "AARCH64", "ARM32", "RV64", "RV32"]
      else ["X86", "X86_64", "AARCH64", "ARM32"] := by
  cases r <;> rfl

/-- C6: disabling the RISC-V family removes exactly the keys "RV64" and
"RV32" from the catalog and leaves the namespace bound to every other label
identical between the two builds. -/
theorem c6_riscv_disable_frame (t : SpecTables)
    (d d' : List (String × List (String × Nat))) :
    (∀ label, label ≠ "RV64" → label ≠ "RV32" →
      dictFind (initRegNamespace t false d) label
        = dictFind (initRegNamespace t true d') label) ∧
    dictFind (initRegNamespace t false d) "RV64" = none ∧
    dictFind (initRegNamespace t false d) "RV32" = none ∧
    dictFind (initRegNamespace t true d') "RV64"
      = some (buildArchDict t.riscv64) ∧
    dictFind (initRegNamespace t true d') "RV32"
      = some (buildArchDict t.riscv32) := by
  refine ⟨?_, ?_, ?_, ?_, ?_⟩
  · intro label h64 h32
    have h64s : ¬("RV64" = label) := fun hh => h64 hh.symm
    have h32s : ¬("RV32" = label) := fun hh => h32 hh.symm
    simp [initRegNamespace_eq, dictFind, h64s, h32s]
  all_goals simp [initRegNamespace_eq, dictFind]

theorem c6_witness :
    dictFind (initRegNamespace toySpecTables false []) "X86"
      = dictFind (initRegNamespace toySpecTables true []) "X86" :=
  (c6_riscv_disable_frame toySpecTables [] []).1 "X86" (by decide) (by decide)

/-- C7: looking up a label absent from the catalog (here "RV64" and "RV32" in
a build without the RISC-V family), or a canonical name that no available row
of the x86 table carries, yields no value at all rather than a default or
substitute identifier. -/
theorem c7_absent_lookup (t : SpecTables)
    (d : List (String × List (String × Nat))) (n : String)
    (habs : ∀ e ∈ t.x86, ¬(e.x86Avail = true ∧ e.name = n)) :
    dictFind (initRegNamespace t false d) "RV64" = none ∧
    dictFind (initRegNamespace t false d) "RV32" = none ∧
    dictFind (buildX86Dict t.x86) n = none := by
  refine ⟨?_, ?_, buildX86Dict_find_none t.x86 n habs⟩ <;>
    simp [initRegNamespace_eq, dictFind]

theorem c7_witness :
    (∀ e ∈ toySpecTables.x86, ¬(e.x86Avail = true ∧ e.name = "FUTURE1")) ∧
    (dictFind (initRegNamespace toySpecTables false []) "RV64" = none ∧
     dictFind (initRegNamespace toySpecTables false []) "RV32" = none ∧
     dictFind (buildX86Dict toySpecTables.x86) "FUTURE1" = none) :=
  ⟨by decide, c7_absent_lookup toySpecTables [] "FUTURE1" (by decide)⟩

/-- C8: in a table with unique canonical names, a row introduced by the
`SYS_REG_SPEC` sub-table lands in the same flat namespace as the ordinary
rows, under its canonical name with its pre-assigned 32-bit identifier, and
the built namespace carries no marker of the row kind: rebuilding after
erasing every kind annotation yields the identical dictionary. -/
theorem c8_sysregs_merged_flat (t : List ArchSpecEntry)
    (hnodup : (t.map ArchSpecEntry.name).Nodup)
    (e : ArchSpecEntry) (he : e ∈ t) (hsys : e.kind = SpecKind.sysReg) :
    dictFind (buildArchDict t) e.name = some (toUint32 e.id) ∧
    buildArchDict t
      = buildArchDict (t.map (fun x => ⟨x.name, x.id, SpecKind.reg⟩)) := by
  refine ⟨buildArchDict_find_mem t hnodup e he, ?_⟩
  unfold buildArchDict
  rw [List.foldl_map]

theorem c8_witness :
    ((toyArchTable.map ArchSpecEntry.name).Nodup ∧
      (⟨"SYSREG0", 12, SpecKind.sysReg⟩ : ArchSpecEntry) ∈ toyArchTable ∧
      (⟨"SYSREG0", 12, SpecKind.sysReg⟩ : ArchSpecEntry).kind
        = SpecKind.sysReg) ∧
    (dictFind (buildArchDict toyArchTable)
        (⟨"SYSREG0", 12, SpecKind.sysReg⟩ : ArchSpecEntry).name
      = some (toUint32 (⟨"SYSREG0", 12, SpecKind.sysReg⟩ : ArchSpecEntry).id) ∧
     buildArchDict toyArchTable
       = buildArchDict
           (toyArchTable.map (fun x => ⟨x.name, x.id, SpecKind.reg⟩))) :=
  ⟨⟨by decide, by decide, by decide⟩,
   c8_sysregs_merged_flat toyArchTable (by decide)
     ⟨"SYSREG0", 12, SpecKind.sysReg⟩ (by decide) (by decide)⟩

/-- C9: the "X86_64" build materializes every row of the shared x86 table
unconditionally: its key list is exactly the list of canonical names of the
table (one pair per row, given unique names), every row maps to its 32-bit
identifier whatever its `X86_AVAIL` flag, and rewriting the availability
column arbitrarily leaves the built namespace unchanged. -/
theorem c9_x8664_ignores_availability (t : List X86SpecEntry)
    (hnodup : (t.map X86SpecEntry.name).Nodup) :
    ((buildX8664Dict t).map Prod.fst = t.map X86SpecEntry.name) ∧
    (∀ e ∈ t, dictFind (buildX8664Dict t) e.name = some (toUint32 e.id)) ∧
    (∀ f : X86SpecEntry → Bool,
      buildX8664Dict (t.map (fun e => ⟨e.name, e.id, f e⟩))
        = buildX8664Dict t) := by
  refine ⟨buildX8664Dict_keys t hnodup,
    fun e he => buildX8664Dict_find_mem t hnodup e he, ?_⟩
  intro f
  unfold buildX8664Dict
  rw [List.foldl_map]

theorem c9_witness :
    (toyX86Table.map X86SpecEntry.name).Nodup ∧
    (((buildX8664Dict toyX86Table).map Prod.fst
        = toyX86Table.map X86SpecEntry.name) ∧
     (∀ e ∈ toyX86Table,
        dictFind (buildX8664Dict toyX86Table) e.name
          = some (toUint32 e.id)) ∧
     (∀ f : X86SpecEntry → Bool,
        buildX8664Dict (toyX86Table.map (fun e => ⟨e.name, e.id, f e⟩))
          = buildX8664Dict toyX86Table)) :=
  ⟨by decide, c9_x8664_ignores_availability toyX86Table (by decide)⟩

/-- C10: every leaf value of the published namespace is produced through
`PyLong_FromUint32`, hence is a natural number strictly below 2^32. -/
theorem c10_leaf_values_uint32 (t : SpecTables) (r : Bool)
    (d : List (String × List (String × Nat))) (label n : String)
    (dd : List (String × Nat)) (i : Nat)
    (h1 : dictFind (initRegNamespace t r d) label = some dd)
    (h2 : dictFind dd n = some i) :
    i < 2 ^ 32 := by
  rcases catalog_values t r d label dd h1 with hdd | hdd | hdd | hdd | hdd | hdd
  · exact buildX86Dict_values_lt t.x86 n i (hdd ▸ h2)
  · exact buildX8664Dict_values_lt t.x86 n i (hdd ▸ h2)
  · exact buildArchDict_values_lt t.aarch64 n i (hdd ▸ h2)
  · exact buildArchDict_values_lt t.arm32 n i (hdd ▸ h2)
  · exact buildArchDict_values_lt t.riscv64 n i (hdd ▸ h2)
  · exact buildArchDict_values_lt t.riscv32 n i (hdd ▸ h2)

theorem c10_witness :
    (dictFind (initRegNamespace toySpecTables true []) "X86"
        = some (buildX86Dict toyX86Table) ∧
      dictFind (buildX86Dict toyX86Table) "AL" = some 1) ∧
    (1 : Nat) < 2 ^ 32 :=
  ⟨⟨by decide, by decide⟩,
   c10_leaf_values_uint32 toySpecTables true [] "X86" "AL"
     (buildX86Dict toyX86Table) 1 (by decide) (by decide)⟩

end Triton
